import Mathlib

/-!
Verification of the event-invoker subsystem of the mini framework runtime
(`patchEvent`, `createInvoker`, `getNow`, `parseName`,
`patchStopImmediatePropagation`) and of the identity-stability of the
reactive proxy factory, as a shallow embedding in Lean 4.

Conventions of the embedding:
* machine timestamps (`Date.now()` results) are natural numbers; `0` is the
  falsy value, matching the JavaScript truthiness tests in the source;
* the mutable DOM element is an explicit `ElemState` record threaded through
  the functions; invoker identity (the JavaScript function object) is an
  index into an explicit heap, so that in-place mutation of
  `invoker.value` is visible through the native-listener registration
  exactly as aliasing makes it in the source;
* wall-clock reads (`Date.now()`) enter as explicit parameters;
* handlers are abstracted by what they can do to the event: throw, and call
  the event object's stop-immediate-propagation capability.
-/

/-! ### Handlers and events -/

/-- Abstraction of a user event handler: an identity, whether the call
throws, and whether the call invokes the event's stop-immediate-propagation
capability. -/
structure Handler where
  id : Nat
  throws : Bool
  stops : Bool
deriving DecidableEq

/-- `type EventValue = Function | Function[]` from the source. -/
inductive EventValue where
  | single (h : Handler)
  | arr (hs : List Handler)
deriving DecidableEq

/-- State of an event object as this subsystem observes it: the `_vts`
dispatch-timestamp field (absent or a number; `some 0` is falsy like
absence), the private `_stopped` flag, how many times the original
(native) `stopImmediatePropagation` was called, and whether
`stopImmediatePropagation` has been monkey-patched by
`patchStopImmediatePropagation`. -/
structure EvState where
  vts : Option Nat
  stopped : Bool
  nativeStopCalls : Nat
  stopPatched : Bool
deriving DecidableEq

/-- Calling `e.stopImmediatePropagation()`: the patched version (installed
for handler lists) calls the original and sets the private `_stopped`
flag; the unpatched version only calls the original. -/
def callStopImmediate (e : EvState) : EvState :=
  if e.stopPatched then
    { e with nativeStopCalls := e.nativeStopCalls + 1, stopped := true }
  else
    { e with nativeStopCalls := e.nativeStopCalls + 1 }

/-- A function as handed to the error-handling channel: either a raw
handler (the single-function case) or a gated wrapper
`(e) => !e._stopped && fn(e)` produced for handler lists. -/
inductive WFn where
  | raw (h : Handler)
  | gated (h : Handler)
deriving DecidableEq

/-- Run the body of a handler on the event: apply its
stop-immediate-propagation call if any, and report whether it throws. -/
def runRawHandler (h : Handler) (e : EvState) : EvState × Bool :=
  (if h.stops then callStopImmediate e else e, h.throws)

/-- Run one wrapped function. A gated wrapper skips its handler entirely
when the `_stopped` flag is already set. Returns the new event state and,
when the handler actually ran, its id and whether it threw. -/
def runWFn : WFn → EvState → EvState × Option (Nat × Bool)
  | .raw h, e =>
      ((runRawHandler h e).1, some (h.id, (runRawHandler h e).2))
  | .gated h, e =>
      if e.stopped then (e, none)
      else ((runRawHandler h e).1, some (h.id, (runRawHandler h e).2))

/-- Modelled from the spec: the error-code kinds of the shared
async-error-handling channel (`ErrorCodes` in `../errorHandling`, whose
source is not among the provided files). Only the native-event-handler
kind is used by this subsystem; a second kind keeps the tagging
non-degenerate. -/
inductive ErrorCodes where
  | NATIVE_EVENT_HANDLER
  | SCHEDULER
deriving DecidableEq

/-- Observable record of what a dispatch did: which handlers ran, and which
errors were routed to the shared channel, with their tag. -/
inductive FireLog where
  | invoked (id : Nat)
  | errorReported (code : ErrorCodes) (id : Nat)
deriving DecidableEq

/-- Log contribution of one wrapped-function run under a given error code. -/
def logOf (code : ErrorCodes) : Option (Nat × Bool) → List FireLog
  | none => []
  | some (i, false) => [.invoked i]
  | some (i, true) => [.invoked i, .errorReported code i]

/-- Modelled from the spec: `callWithAsyncErrorHandling(fnOrFns, context,
errorCodeKind, args)` from `../errorHandling` (source not among the
provided files) "invokes one or many functions, catching and routing
thrown errors through a shared error-reporting channel; never lets a
handler exception escape to the caller". A single function is represented
as the one-element list. Errors are data in the returned log, so by
construction nothing escapes to the caller, and one throwing handler does
not prevent the remaining functions from running. -/
def callWithAsyncErrorHandling
    (fns : List WFn) (code : ErrorCodes) (e : EvState) :
    EvState × List FireLog :=
  match fns with
  | [] => (e, [])
  | f :: rest =>
      let r := runWFn f e
      let tail := callWithAsyncErrorHandling rest code r.1
      (tail.1, logOf code r.2 ++ tail.2)

/-- `patchStopImmediatePropagation(e, value)`: for a handler list, replace
the event's stop-immediate-propagation capability by one that also sets
the private `_stopped` flag, and gate each handler on that flag; a single
handler and the event are returned untouched. -/
def patchStopImmediatePropagation (e : EvState) :
    EventValue → EvState × List WFn
  | .single h => (e, [WFn.raw h])
  | .arr hs => ({ e with stopPatched := true }, hs.map WFn.gated)

/-- The invoker: a function object with a `value` (current handler or
handler list) and an `attached` timestamp. -/
structure Invoker where
  value : EventValue
  attached : Nat
deriving DecidableEq

/-- The tail of the invoker body: wrap the value through
`patchStopImmediatePropagation` and hand it to
`callWithAsyncErrorHandling` with the native-event-handler error code. -/
def fireDispatch (inv : Invoker) (e : EvState) : EvState × List FireLog :=
  let pr := patchStopImmediatePropagation e inv.value
  callWithAsyncErrorHandling pr.2 ErrorCodes.NATIVE_EVENT_HANDLER pr.1

/-- JavaScript falsiness of the `_vts` field: absent or `0`. -/
def vtsFalsy : Option Nat → Bool
  | none => true
  | some n => n == 0

/-- The invoker body from `createInvoker`: if the event has no (truthy)
timestamp, stamp it with the current wall clock and proceed; else if the
timestamp is strictly before the invoker's `attached` time, return without
invoking anything; else proceed to dispatch. -/
def invokerFire (inv : Invoker) (wall : Nat) (e : EvState) :
    EvState × List FireLog :=
  if vtsFalsy e.vts then
    fireDispatch inv { e with vts := some wall }
  else if e.vts.getD 0 < inv.attached then
    (e, [])
  else
    fireDispatch inv e

/-- Ids of the handlers that actually ran, in order. -/
def handlerCalls : List FireLog → List Nat
  | [] => []
  | .invoked i :: rest => i :: handlerCalls rest
  | .errorReported _ _ :: rest => handlerCalls rest

/-! ### Tick clock -/

/-- State of the tick clock: the cached timestamp (`0` meaning empty, as in
the source's falsiness test) and whether a cache-reset microtask is
pending. -/
structure Clock where
  cachedNow : Nat
  resetScheduled : Bool
deriving DecidableEq

/-- `getNow()`:
`cachedNow || (p.then(() => (cachedNow = 0)), (cachedNow = Date.now()))`.
Returns the cached timestamp when one is cached; otherwise reads the wall
clock, caches it and schedules the microtask that resets the cache. -/
def getNow (c : Clock) (wall : Nat) : Nat × Clock :=
  if c.cachedNow ≠ 0 then (c.cachedNow, c)
  else (wall, { cachedNow := wall, resetScheduled := true })

/-- Drain the microtask queue at the end of the tick: the scheduled
callback resets the cache to empty. -/
def runMicrotasks (c : Clock) : Clock :=
  if c.resetScheduled then { cachedNow := 0, resetScheduled := false } else c

/-- `createInvoker(initialValue)`: build the invoker with
`value = initialValue` and `attached = getNow()`. -/
def createInvoker (v : EventValue) (c : Clock) (wall : Nat) :
    Invoker × Clock :=
  let r := getNow c wall
  ({ value := v, attached := r.1 }, r.2)

/-! ### Event-name parsing -/

/-- Whether a character is a word character for the `\B` boundary test of
the hyphenation regular expression. -/
def isWordChar (c : Char) : Bool := c.isAlphanum || c = '_'

/-- Character-level transcription of
`str.replace(/\B([A-Z])/g, "-$1").toLowerCase()`: an upper-case letter
preceded by a word character gets a hyphen inserted before it, and the
whole string is lower-cased. The first argument is the preceding
character, if any. -/
def hyphenateChars : Option Char → List Char → List Char
  | _, [] => []
  | prev, c :: rest =>
      (if c.isUpper &&
          (match prev with | some p => isWordChar p | none => false) then
        ['-', c.toLower]
      else
        [c.toLower]) ++ hyphenateChars (some c) rest

/-- `hyphenate` from `@mini/shared` (its source is not among the provided
files; the source header of the event module records its regular
expression `/\B([A-Z])/g`, and the spec documents it as the
camelCase → hyphen-lowercase converter). -/
def hyphenate (s : String) : String :=
  String.mk (hyphenateChars none s.toList)

/-- `parseName(name)`: when the third character is a colon, the segment
after the two-character prefix and the colon is the event name verbatim;
otherwise the segment after the two-character prefix is hyphenated.
Listener-option modifiers are unsupported, so the options component is
always `none`. -/
def parseName (name : String) : String × Option Unit :=
  (if name.toList.getD 2 ' ' = ':' then
    String.mk (name.toList.drop 3)
  else
    hyphenate (String.mk (name.toList.drop 2)), none)

/-! ### Element state and `patchEvent` -/

/-- Read the invoker cache the way `invokers[rawName]` does: a missing key
and a key explicitly set to `undefined` both read back as empty. -/
def readCacheList : List (String × Option Nat) → String → Option Nat
  | [], _ => none
  | (k, v) :: rest, key => if k = key then v else readCacheList rest key

/-- The cache entry for a key, distinguishing a key explicitly set to
`undefined` (`some none`) from an absent key (`none`). -/
def getEntry : List (String × Option Nat) → String → Option (Option Nat)
  | [], _ => none
  | (k, v) :: rest, key =>
      if k = key then some v else getEntry rest key

/-- Assign `invokers[key] = v`: overwrite the entry in place when the key
is present, otherwise append a new entry. -/
def setAssoc : List (String × Option Nat) → String → Option Nat →
    List (String × Option Nat)
  | [], key, v => [(key, v)]
  | (k, w) :: rest, key, v =>
      if k = key then (key, v) :: rest else (k, w) :: setAssoc rest key v

/-- Mutate `invoker.value` in place through the heap: the invoker at the
given index gets the new value, every other invoker is untouched. -/
def setValueAt : List Invoker → Nat → EventValue → List Invoker
  | [], _, _ => []
  | inv :: rest, 0, v => { inv with value := v } :: rest
  | inv :: rest, n + 1, v => inv :: setValueAt rest n v

/-- A registered native listener: event name, invoker heap index, options. -/
abbrev NativeListener := String × Nat × Option Unit

/-- `el.removeEventListener(event, handler, options)`: remove the one
registered listener matching the event name and the handler; with an
`undefined` handler nothing matches and the call is a no-op (it does not
throw). -/
def removeFirstListener :
    List NativeListener → String → Option Nat → List NativeListener
  | [], _, _ => []
  | (n, i, o) :: rest, event, handler =>
      if n = event ∧ some i = handler then rest
      else (n, i, o) :: removeFirstListener rest event handler

/-- The mutable state of one DOM element as this subsystem sees it: the
heap of invoker function objects (index = identity), the `_vei` invoker
cache, the registered native listeners, and the shared tick clock. -/
structure ElemState where
  heap : List Invoker
  cache : List (String × Option Nat)
  listeners : List NativeListener
  clock : Clock
deriving DecidableEq

/-- A fresh element before any event patch, with an empty tick clock. -/
def elemInit : ElemState :=
  { heap := [], cache := [], listeners := [],
    clock := { cachedNow := 0, resetScheduled := false } }

/-- Observable DOM operations performed by `patchEvent`. -/
inductive DomOp where
  | addL (event : String) (handlerId : Nat) (opts : Option Unit)
  | removeL (event : String) (handlerId : Option Nat) (opts : Option Unit)
deriving DecidableEq

/-- Whether a DOM operation is an `addEventListener` call. -/
def DomOp.isAdd : DomOp → Bool
  | .addL _ _ _ => true
  | .removeL _ _ _ => false

/-- `patchEvent(el, rawName, nextValue)`: when an invoker is cached and the
new value is non-empty, mutate `invoker.value` in place; otherwise parse
the name, and either create an invoker, register it and cache it
(non-empty value), or remove the listener and clear the cache slot
(empty value). Returns the new element state and the DOM operations
performed. -/
def patchEvent (s : ElemState) (rawName : String)
    (nextValue : Option EventValue) (wall : Nat) :
    ElemState × List DomOp :=
  match readCacheList s.cache rawName, nextValue with
  | some id, some v =>
      ({ s with heap := setValueAt s.heap id v }, [])
  | existing, _ =>
      let pn := parseName rawName
      match nextValue with
      | some v =>
          let cr := createInvoker v s.clock wall
          let id := s.heap.length
          ({ heap := s.heap ++ [cr.1],
             cache := setAssoc s.cache rawName (some id),
             listeners := s.listeners ++ [(pn.1, id, pn.2)],
             clock := cr.2 },
           [DomOp.addL pn.1 id pn.2])
      | none =>
          ({ s with
             cache := setAssoc s.cache rawName none,
             listeners := removeFirstListener s.listeners pn.1 existing },
           [DomOp.removeL pn.1 existing pn.2])

/-- Native dispatch of an event to the registered listeners: each listener
for the event name fires its invoker (looked up in the heap at fire time),
threading the event state and concatenating the logs. -/
def fireListeners (heap : List Invoker) :
    List NativeListener → String → Nat → EvState → EvState × List FireLog
  | [], _, _, e => (e, [])
  | (n, id, _) :: rest, event, wall, e =>
      if n = event then
        match heap.get? id with
        | some inv =>
            let r := invokerFire inv wall e
            let tail := fireListeners heap rest event wall r.1
            (tail.1, r.2 ++ tail.2)
        | none => fireListeners heap rest event wall e
      else fireListeners heap rest event wall e

/-- Dispatch an event on the element: fire every registered native
listener for the event name, in registration order. -/
def dispatchEvent (s : ElemState) (event : String) (wall : Nat)
    (e : EvState) : EvState × List FireLog :=
  fireListeners s.heap s.listeners event wall e

/-! ### Reactive proxy factory (modelled from the spec) -/

/-- Modelled from the spec: values seen by the reactive proxy factory
(`reactive` and its variants, whose source `./reactive` is not among the
provided files) — either a plain raw object or a proxy carrying the
wrapping flag, both named by numeric identity. -/
inductive Obj where
  | raw (id : Nat)
  | prox (id : Nat)
deriving DecidableEq

/-- Look up a numeric key in an association list. -/
def lookupNat : List (Nat × Nat) → Nat → Option Nat
  | [], _ => none
  | (k, v) :: rest, key => if k = key then some v else lookupNat rest key

/-- Modelled from the spec: the state of one wrapping variant of the
reactive proxy factory — the target → proxy identity cache and a supply of
fresh proxy identities. -/
structure WrapState where
  cache : List (Nat × Nat)
  nextId : Nat
deriving DecidableEq

/-- Modelled from the spec: `wrap(target, flags)` for one fixed wrapping
variant. A value that is already a proxy carrying the matching flag is
returned unmodified; a raw target found in the target → proxy cache gets
its cached proxy back; otherwise a fresh proxy is created and cached. -/
def wrap (s : WrapState) (o : Obj) : Obj × WrapState :=
  match o with
  | .prox _ => (o, s)
  | .raw t =>
      match lookupNat s.cache t with
      | some p => (.prox p, s)
      | none =>
          (.prox s.nextId,
           { cache := (t, s.nextId) :: s.cache, nextId := s.nextId + 1 })

/-! ### Concrete scenario fixtures -/

/-- A first benign handler (neither throws nor stops). -/
def fnOne : Handler := { id := 1, throws := false, stops := false }

/-- A second benign handler. -/
def fnTwo : Handler := { id := 2, throws := false, stops := false }

/-- A freshly dispatched event: no `_vts` stamp, not stopped, original
stop-immediate-propagation in place. -/
def evFresh : EvState :=
  { vts := none, stopped := false, nativeStopCalls := 0, stopPatched := false }

/-- Element after `patchEvent(el, "onClick", fn1)` at wall time 100. -/
def sAfterFn1 : ElemState :=
  (patchEvent elemInit "onClick" (some (.single fnOne)) 100).1

/-- Element after a further `patchEvent(el, "onClick", fn2)` at wall time
120. -/
def sAfterFn2 : ElemState :=
  (patchEvent sAfterFn1 "onClick" (some (.single fnTwo)) 120).1

/-- Element after `patchEvent(el, "onClick", fn1)` and then
`patchEvent(el, "onClick", null)`. -/
def sAfterUnbind : ElemState := (patchEvent sAfterFn1 "onClick" none 140).1

/-! ### Helper lemmas -/

theorem handlerCalls_append (l1 l2 : List FireLog) :
    handlerCalls (l1 ++ l2) = handlerCalls l1 ++ handlerCalls l2 := by
  induction l1 with
  | nil => simp [handlerCalls]
  | cons x rest ih => cases x <;> simp [handlerCalls, ih]

theorem handlerCalls_logOf (code : ErrorCodes) (i : Nat) (b : Bool) :
    handlerCalls (logOf code (some (i, b))) = [i] := by
  cases b <;> simp [logOf, handlerCalls]

theorem cwaeh_single_raw (h : Handler) (code : ErrorCodes) (e : EvState) :
    handlerCalls (callWithAsyncErrorHandling [WFn.raw h] code e).2 = [h.id] := by
  simp [callWithAsyncErrorHandling, runWFn, handlerCalls_append, handlerCalls_logOf,
    handlerCalls]

theorem cwaeh_gated_stopped (hs : List Handler) (code : ErrorCodes) (e : EvState)
    (hst : e.stopped = true) :
    callWithAsyncErrorHandling (hs.map WFn.gated) code e = (e, []) := by
  induction hs with
  | nil => simp [callWithAsyncErrorHandling]
  | cons h rest ih => simp [callWithAsyncErrorHandling, runWFn, hst, logOf, ih]

theorem cwaeh_gated_no_stops (hs : List Handler) (code : ErrorCodes) (e : EvState)
    (hst : e.stopped = false) (hns : ∀ h ∈ hs, h.stops = false) :
    handlerCalls (callWithAsyncErrorHandling (hs.map WFn.gated) code e).2 =
      hs.map Handler.id := by
  induction hs generalizing e with
  | nil => simp [callWithAsyncErrorHandling, handlerCalls]
  | cons h rest ih =>
      have h1 : h.stops = false := hns h (by simp)
      have e1 : runWFn (.gated h) e = (e, some (h.id, h.throws)) := by
        simp [runWFn, hst, runRawHandler, h1]
      have tail := ih e hst (fun g hg => hns g (by simp [hg]))
      simp [callWithAsyncErrorHandling, e1, handlerCalls_append, handlerCalls_logOf, tail]

theorem cwaeh_error_tag (fns : List WFn) (c : ErrorCodes) (e : EvState)
    (code : ErrorCodes) (i : Nat)
    (hmem : FireLog.errorReported code i ∈ (callWithAsyncErrorHandling fns c e).2) :
    code = c := by
  induction fns generalizing e with
  | nil => simp [callWithAsyncErrorHandling] at hmem
  | cons f rest ih =>
      simp only [callWithAsyncErrorHandling, List.mem_append] at hmem
      rcases hmem with h | h
      · rcases hr : (runWFn f e).2 with _ | ⟨j, b⟩
        · rw [hr] at h; simp [logOf] at h
        · rw [hr] at h; cases b <;> simp [logOf] at h
          · exact h.1
      · exact ih _ h

theorem callStopImmediate_vts (e : EvState) :
    (callStopImmediate e).vts = e.vts := by
  simp only [callStopImmediate]; split <;> rfl

theorem runWFn_vts (f : WFn) (e : EvState) : ((runWFn f e).1).vts = e.vts := by
  cases f with
  | raw h => simp only [runWFn, runRawHandler]; split <;> simp [callStopImmediate_vts]
  | gated h =>
      simp only [runWFn]
      split
      · rfl
      · simp only [runRawHandler]; split <;> simp [callStopImmediate_vts]

theorem cwaeh_vts (fns : List WFn) (c : ErrorCodes) (e : EvState) :
    ((callWithAsyncErrorHandling fns c e).1).vts = e.vts := by
  induction fns generalizing e with
  | nil => rfl
  | cons f rest ih =>
      simp only [callWithAsyncErrorHandling]
      rw [ih, runWFn_vts]

theorem fireDispatch_vts (inv : Invoker) (e : EvState) :
    ((fireDispatch inv e).1).vts = e.vts := by
  cases hv : inv.value <;>
    simp [fireDispatch, patchStopImmediatePropagation, hv, cwaeh_vts]

theorem readCacheList_setAssoc_self (l : List (String × Option Nat)) (k : String)
    (v : Option Nat) : readCacheList (setAssoc l k v) k = v := by
  induction l with
  | nil => simp [setAssoc, readCacheList]
  | cons p rest ih =>
      obtain ⟨q, w⟩ := p
      by_cases h : q = k <;> simp [setAssoc, readCacheList, h, ih]

theorem getEntry_setAssoc_self (l : List (String × Option Nat)) (k : String)
    (v : Option Nat) : getEntry (setAssoc l k v) k = some v := by
  induction l with
  | nil => simp [setAssoc, getEntry]
  | cons p rest ih =>
      obtain ⟨q, w⟩ := p
      by_cases h : q = k <;> simp [setAssoc, getEntry, h, ih]

theorem setAssoc_idem (l : List (String × Option Nat)) (k : String)
    (v : Option Nat) : setAssoc (setAssoc l k v) k v = setAssoc l k v := by
  induction l with
  | nil => simp [setAssoc]
  | cons p rest ih =>
      obtain ⟨q, w⟩ := p
      by_cases h : q = k <;> simp [setAssoc, h, ih]

theorem removeFirstListener_none (ls : List NativeListener) (n : String) :
    removeFirstListener ls n none = ls := by
  induction ls with
  | nil => rfl
  | cons p rest ih =>
      obtain ⟨nm, i, o⟩ := p
      simp [removeFirstListener, ih]

theorem setValueAt_attached (hp : List Invoker) (id j : Nat) (v : EventValue) :
    ((setValueAt hp id v).get? j).map Invoker.attached =
      (hp.get? j).map Invoker.attached := by
  induction hp generalizing id j with
  | nil => simp [setValueAt]
  | cons inv rest ih =>
      cases id with
      | zero => cases j <;> simp [setValueAt]
      | succ n =>
          cases j with
          | zero => simp [setValueAt]
          | succ m => simpa [setValueAt] using ih n m

/-! ### Claim theorems -/

/-- C1: When an invoker fires on an event: if the event carries no dispatch
timestamp, the invoker stamps it with the current wall-clock time and
invokes the handler(s); if the event already carries a timestamp strictly
earlier than the invoker's attached time, no handler is invoked (the event
is silently swallowed); if the timestamp is at or after the attached time,
the handler(s) are invoked. The last conjunct makes "invokes the
handler(s)" concrete: dispatch of a single-handler value always runs that
handler. -/
theorem claim_C1_invoker_staleness :
    (∀ (inv : Invoker) (wall : Nat) (e : EvState), e.vts = none →
        invokerFire inv wall e = fireDispatch inv { e with vts := some wall }) ∧
    (∀ (inv : Invoker) (wall : Nat) (e : EvState) (t : Nat),
        e.vts = some t → t ≠ 0 → t < inv.attached →
        invokerFire inv wall e = (e, [])) ∧
    (∀ (inv : Invoker) (wall : Nat) (e : EvState) (t : Nat),
        e.vts = some t → t ≠ 0 → inv.attached ≤ t →
        invokerFire inv wall e = fireDispatch inv e) ∧
    (∀ (a : Nat) (h : Handler) (e : EvState),
        handlerCalls
          (fireDispatch { value := .single h, attached := a } e).2 = [h.id]) := by
  refine ⟨?_, ?_, ?_, ?_⟩
  · intro inv wall e hv
    simp [invokerFire, vtsFalsy, hv]
  · intro inv wall e t hv h0 hlt
    simp [invokerFire, vtsFalsy, hv, h0, hlt]
  · intro inv wall e t hv h0 hge
    simp [invokerFire, vtsFalsy, hv, h0, Nat.not_lt.mpr hge]
  · intro a h e
    simpa [fireDispatch, patchStopImmediatePropagation] using
      cwaeh_single_raw h ErrorCodes.NATIVE_EVENT_HANDLER e

/-- Witness for C1 at concrete inputs: an unstamped click is stamped and
delivered, a stale one (timestamp 50, attach time 100) is swallowed, an
on-time one (timestamp 100) is delivered. -/
theorem claim_C1_witness :
    invokerFire { value := .single fnOne, attached := 100 } 105 evFresh =
      fireDispatch { value := .single fnOne, attached := 100 }
        { evFresh with vts := some 105 } ∧
    invokerFire { value := .single fnOne, attached := 100 } 105
        { evFresh with vts := some 50 } = ({ evFresh with vts := some 50 }, []) ∧
    invokerFire { value := .single fnOne, attached := 100 } 105
        { evFresh with vts := some 100 } =
      fireDispatch { value := .single fnOne, attached := 100 }
        { evFresh with vts := some 100 } ∧
    handlerCalls
      (fireDispatch { value := .single fnOne, attached := 100 } evFresh).2 =
        [fnOne.id] :=
  ⟨claim_C1_invoker_staleness.1 _ 105 evFresh rfl,
   claim_C1_invoker_staleness.2.1 _ 105 _ 50 rfl (by decide) (by decide),
   claim_C1_invoker_staleness.2.2.1 _ 105 _ 100 rfl (by decide) (by decide),
   claim_C1_invoker_staleness.2.2.2 100 fnOne evFresh⟩

/-- C9: an event whose `_vts` field is present but equal to 0 is treated as
unstamped: the invoker overwrites the timestamp with the current
wall-clock time and dispatches, bypassing the staleness comparison
entirely — even when the wall-clock time is itself strictly before the
attach time, the handler still runs. -/
theorem claim_C9_zero_vts_restamped :
    (∀ (inv : Invoker) (wall : Nat) (e : EvState), e.vts = some 0 →
        invokerFire inv wall e = fireDispatch inv { e with vts := some wall }) ∧
    (∀ (a : Nat) (h : Handler) (wall : Nat) (e : EvState),
        e.vts = some 0 → wall < a →
        handlerCalls
            (invokerFire { value := .single h, attached := a } wall e).2 =
          [h.id] ∧
        (invokerFire { value := .single h, attached := a } wall e).1.vts =
          some wall) := by
  have hmain : ∀ (inv : Invoker) (wall : Nat) (e : EvState), e.vts = some 0 →
      invokerFire inv wall e = fireDispatch inv { e with vts := some wall } := by
    intro inv wall e hv
    simp [invokerFire, vtsFalsy, hv]
  refine ⟨hmain, ?_⟩
  intro a h wall e hv _
  rw [hmain _ wall e hv]
  constructor
  · simpa [fireDispatch, patchStopImmediatePropagation] using
      cwaeh_single_raw h ErrorCodes.NATIVE_EVENT_HANDLER { e with vts := some wall }
  · rw [fireDispatch_vts]

/-- Witness for C9: attach time 100, wall clock 5, incoming `_vts = 0`: the
handler runs anyway and the event leaves with `_vts = 5`. -/
theorem claim_C9_witness :
    handlerCalls
        (invokerFire { value := .single fnOne, attached := 100 } 5
          { evFresh with vts := some 0 }).2 = [fnOne.id] ∧
    (invokerFire { value := .single fnOne, attached := 100 } 5
        { evFresh with vts := some 0 }).1.vts = some 5 :=
  claim_C9_zero_vts_restamped.2 100 fnOne 5 { evFresh with vts := some 0 }
    rfl (by decide)

/-- C4: `getNow` returns the cached timestamp when one is cached for the
current tick, and otherwise captures the wall-clock time, caches it, and
schedules a microtask that resets the cache; consequently two invokers
created within the same synchronous tick (no microtask drain between the
two creations, non-zero wall clock) carry identical `attached` values. -/
theorem claim_C4_tick_clock :
    (∀ (c : Clock) (wall : Nat), c.cachedNow ≠ 0 →
        getNow c wall = (c.cachedNow, c)) ∧
    (∀ (c : Clock) (wall : Nat), c.cachedNow = 0 →
        getNow c wall = (wall, { cachedNow := wall, resetScheduled := true }) ∧
        runMicrotasks { cachedNow := wall, resetScheduled := true } =
          { cachedNow := 0, resetScheduled := false }) ∧
    (∀ (c : Clock) (w1 w2 : Nat) (v1 v2 : EventValue),
        c.cachedNow ≠ 0 ∨ w1 ≠ 0 →
        ((createInvoker v1 c w1).1).attached =
          ((createInvoker v2 (createInvoker v1 c w1).2 w2).1).attached) := by
  refine ⟨?_, ?_, ?_⟩
  · intro c wall hc
    simp [getNow, hc]
  · intro c wall hc
    exact ⟨by simp [getNow, hc], by simp [runMicrotasks]⟩
  · intro c w1 w2 v1 v2 hne
    by_cases hc : c.cachedNow = 0
    · have hw : w1 ≠ 0 := by
        rcases hne with h | h
        · exact absurd hc h
        · exact h
      simp [createInvoker, getNow, hc, hw]
    · simp [createInvoker, getNow, hc]

/-- Witness for C4 at concrete inputs: an empty clock at wall time 500,
then a second creation at wall time 777 in the same tick, and the
microtask reset. -/
theorem claim_C4_witness :
    getNow { cachedNow := 42, resetScheduled := false } 500 =
      (42, { cachedNow := 42, resetScheduled := false }) ∧
    (getNow { cachedNow := 0, resetScheduled := false } 500 =
      (500, { cachedNow := 500, resetScheduled := true }) ∧
     runMicrotasks { cachedNow := 500, resetScheduled := true } =
      { cachedNow := 0, resetScheduled := false }) ∧
    ((createInvoker (.single fnOne)
        { cachedNow := 0, resetScheduled := false } 500).1).attached =
      ((createInvoker (.single fnTwo)
        (createInvoker (.single fnOne)
          { cachedNow := 0, resetScheduled := false } 500).2 777).1).attached :=
  ⟨claim_C4_tick_clock.1 _ 500 (by decide),
   claim_C4_tick_clock.2.1 _ 500 rfl,
   claim_C4_tick_clock.2.2 _ 500 777 _ _ (Or.inr (by decide))⟩

/-- C5: `parseName` returns the segment after the 2-character prefix and a
colon verbatim when the third character is a colon, and otherwise the
hyphen-lowercase conversion of the segment after the 2-character prefix;
in particular on "onClick", "on:my-event" and "onDoubleClick". -/
theorem claim_C5_parseName :
    (∀ name : String, name.toList.getD 2 ' ' = ':' →
        parseName name = (String.mk (name.toList.drop 3), none)) ∧
    (∀ name : String, name.toList.getD 2 ' ' ≠ ':' →
        parseName name =
          (hyphenate (String.mk (name.toList.drop 2)), none)) ∧
    parseName "onClick" = ("click", none) ∧
    parseName "on:my-event" = ("my-event", none) ∧
    parseName "onDoubleClick" = ("double-click", none) := by
  refine ⟨?_, ?_, by decide, by decide, by decide⟩
  · intro name h
    simp only [parseName, if_pos h]
  · intro name h
    simp only [parseName, if_neg h]

/-- Witness for C5: the two conditional branches applied at "on:my-event"
and "onClick". -/
theorem claim_C5_witness :
    parseName "on:my-event" =
      (String.mk ("on:my-event".toList.drop 3), none) ∧
    parseName "onClick" =
      (hyphenate (String.mk ("onClick".toList.drop 2)), none) :=
  ⟨claim_C5_parseName.1 "on:my-event" (by decide),
   claim_C5_parseName.2.1 "onClick" (by decide)⟩

/-- C8: wrapping is identity-stable and idempotent for one wrapping
variant: wrapping the result of a wrap returns the very same proxy and
leaves the state unchanged (`wrap(O) === wrap(wrap(O))`), and wrapping the
same raw target twice yields the same proxy both times. -/
theorem claim_C8_wrap_idempotent :
    (∀ (s : WrapState) (o : Obj),
        wrap (wrap s o).2 (wrap s o).1 = ((wrap s o).1, (wrap s o).2)) ∧
    (∀ (s : WrapState) (t : Nat),
        (wrap (wrap s (.raw t)).2 (.raw t)).1 = (wrap s (.raw t)).1) := by
  constructor
  · intro s o
    cases o with
    | prox p => rfl
    | raw t =>
        cases hl : lookupNat s.cache t with
        | some p => simp [wrap, hl]
        | none => simp [wrap, hl]
  · intro s t
    cases hl : lookupNat s.cache t with
    | some p => simp [wrap, hl]
    | none => simp [wrap, hl, lookupNat]

/-- C2: when an invoker is cached and the new handler value is non-empty,
`patchEvent` only replaces the invoker's `value` field in the heap: no DOM
operation is emitted (the same invoker object stays registered), every
`attached` timestamp is unchanged; and in the concrete fn1-then-fn2
scenario the native listener is attached exactly once and fn2 is the
effective handler. -/
theorem claim_C2_inplace_update :
    (∀ (s : ElemState) (rawName : String) (id : Nat) (v : EventValue)
        (wall : Nat),
        readCacheList s.cache rawName = some id →
        patchEvent s rawName (some v) wall =
          ({ s with heap := setValueAt s.heap id v }, []) ∧
        ∀ j, ((setValueAt s.heap id v).get? j).map Invoker.attached =
          (s.heap.get? j).map Invoker.attached) ∧
    ((patchEvent elemInit "onClick" (some (.single fnOne)) 100).2 =
        [DomOp.addL "click" 0 none] ∧
     (patchEvent sAfterFn1 "onClick" (some (.single fnTwo)) 120).2 = [] ∧
     ((patchEvent elemInit "onClick" (some (.single fnOne)) 100).2 ++
        (patchEvent sAfterFn1 "onClick" (some (.single fnTwo)) 120).2).countP
          DomOp.isAdd = 1 ∧
     sAfterFn2.listeners = [("click", 0, none)] ∧
     sAfterFn2.cache = sAfterFn1.cache ∧
     (sAfterFn2.heap.get? 0).map Invoker.attached = some 100 ∧
     handlerCalls (dispatchEvent sAfterFn2 "click" 130 evFresh).2 =
       [fnTwo.id]) := by
  constructor
  · intro s rawName id v wall h
    exact ⟨by simp [patchEvent, h], fun j => setValueAt_attached s.heap id j v⟩
  · refine ⟨by decide, by decide, by decide, by decide, by decide, by decide,
      by decide⟩

/-- Witness for C2: the in-place-update branch applied to the concrete
element that already caches an invoker for "onClick". -/
theorem claim_C2_witness :
    patchEvent sAfterFn1 "onClick" (some (.single fnTwo)) 120 =
      ({ sAfterFn1 with heap := setValueAt sAfterFn1.heap 0 (.single fnTwo) },
       []) :=
  (claim_C2_inplace_update.1 sAfterFn1 "onClick" 0 (.single fnTwo) 120
    (by decide)).1

/-- C3: with an invoker cached for the raw event name, `patchEvent` with an
empty handler value removes the native listener (a `removeEventListener`
call with the parsed event name and the stored options) and clears the
cache slot; in the concrete scenario a subsequent dispatch of the event
produces no handler call. -/
theorem claim_C3_unbind :
    (∀ (s : ElemState) (rawName : String) (id : Nat) (wall : Nat),
        readCacheList s.cache rawName = some id →
        patchEvent s rawName none wall =
          ({ s with
             cache := setAssoc s.cache rawName none,
             listeners :=
               removeFirstListener s.listeners (parseName rawName).1
                 (some id) },
           [DomOp.removeL (parseName rawName).1 (some id)
             (parseName rawName).2])) ∧
    ((patchEvent sAfterFn1 "onClick" none 140).2 =
        [DomOp.removeL "click" (some 0) none] ∧
     sAfterUnbind.listeners = [] ∧
     getEntry sAfterUnbind.cache "onClick" = some none ∧
     (dispatchEvent sAfterUnbind "click" 150 evFresh).2 = []) := by
  constructor
  · intro s rawName id wall h
    simp [patchEvent, h]
  · exact ⟨by decide, by decide, by decide, by decide⟩

/-- Witness for C3: the removal branch applied to the concrete element that
caches an invoker for "onClick". -/
theorem claim_C3_witness :
    patchEvent sAfterFn1 "onClick" none 140 =
      ({ sAfterFn1 with
         cache := setAssoc sAfterFn1.cache "onClick" none,
         listeners :=
           removeFirstListener sAfterFn1.listeners (parseName "onClick").1
             (some 0) },
       [DomOp.removeL (parseName "onClick").1 (some 0)
         (parseName "onClick").2]) :=
  claim_C3_unbind.1 sAfterFn1 "onClick" 0 140 (by decide)

/-- C10: `patchEvent` with an empty handler value and no cached invoker
still takes the removal branch: `removeEventListener` is called with an
undefined handler, the cache slot for the raw name is set to `undefined`
(the listeners are untouched), the call produces a well-defined result
state, and repeating the call leaves the state unchanged. -/
theorem claim_C10_remove_uncached :
    ∀ (s : ElemState) (rawName : String) (wall wall2 : Nat),
      readCacheList s.cache rawName = none →
      patchEvent s rawName none wall =
        ({ s with cache := setAssoc s.cache rawName none },
         [DomOp.removeL (parseName rawName).1 none (parseName rawName).2]) ∧
      getEntry (patchEvent s rawName none wall).1.cache rawName = some none ∧
      patchEvent (patchEvent s rawName none wall).1 rawName none wall2 =
        ((patchEvent s rawName none wall).1,
         [DomOp.removeL (parseName rawName).1 none (parseName rawName).2]) := by
  intro s rawName wall wall2 h
  have hgen : ∀ (u : ElemState) (w : Nat),
      readCacheList u.cache rawName = none →
      patchEvent u rawName none w =
        ({ u with cache := setAssoc u.cache rawName none },
         [DomOp.removeL (parseName rawName).1 none (parseName rawName).2]) := by
    intro u w hu
    simp [patchEvent, hu, removeFirstListener_none]
  have h1 := hgen s wall h
  refine ⟨h1, ?_, ?_⟩
  · rw [h1]
    exact getEntry_setAssoc_self s.cache rawName none
  · have h2 : readCacheList (patchEvent s rawName none wall).1.cache rawName =
        none := by
      rw [h1]
      exact readCacheList_setAssoc_self s.cache rawName none
    have h3 := hgen _ wall2 h2
    rw [h3, h1]
    simp [setAssoc_idem]

/-- Witness for C10: unbinding "onClick" on a fresh element that never had
a handler, twice. -/
theorem claim_C10_witness :
    patchEvent elemInit "onClick" none 100 =
      ({ elemInit with cache := setAssoc elemInit.cache "onClick" none },
       [DomOp.removeL (parseName "onClick").1 none (parseName "onClick").2]) ∧
    getEntry (patchEvent elemInit "onClick" none 100).1.cache "onClick" =
      some none ∧
    patchEvent (patchEvent elemInit "onClick" none 100).1 "onClick" none 110 =
      ((patchEvent elemInit "onClick" none 100).1,
       [DomOp.removeL (parseName "onClick").1 none (parseName "onClick").2]) :=
  claim_C10_remove_uncached elemInit "onClick" 100 110 (by decide)

theorem fireDispatch_error_tag (inv : Invoker) (e : EvState)
    (code : ErrorCodes) (i : Nat)
    (hmem : FireLog.errorReported code i ∈ (fireDispatch inv e).2) :
    code = ErrorCodes.NATIVE_EVENT_HANDLER :=
  cwaeh_error_tag (patchStopImmediatePropagation e inv.value).2
    ErrorCodes.NATIVE_EVENT_HANDLER
    (patchStopImmediatePropagation e inv.value).1 code i hmem

/-- C6: when an invoker's value is a list of handlers, the event is wrapped
so that its stop-immediate-propagation capability also sets the private
stopped flag; the handlers are invoked in list order; and each handler is
skipped if the stopped flag is already set when its turn comes (in
particular everything after a handler that stops is skipped). -/
theorem claim_C6_handler_list :
    (∀ (e : EvState) (hs : List Handler),
        patchStopImmediatePropagation e (.arr hs) =
          ({ e with stopPatched := true }, hs.map WFn.gated)) ∧
    (∀ e : EvState, e.stopPatched = true →
        (callStopImmediate e).stopped = true ∧
        (callStopImmediate e).nativeStopCalls = e.nativeStopCalls + 1) ∧
    (∀ (h : Handler) (e : EvState), e.stopped = true →
        runWFn (.gated h) e = (e, none)) ∧
    (∀ (a : Nat) (hs : List Handler) (e : EvState),
        e.stopped = false → (∀ h ∈ hs, h.stops = false) →
        handlerCalls (fireDispatch { value := .arr hs, attached := a } e).2 =
          hs.map Handler.id) ∧
    (∀ (a : Nat) (h1 : Handler) (rest : List Handler) (e : EvState),
        e.stopped = false → h1.stops = true →
        handlerCalls
            (fireDispatch { value := .arr (h1 :: rest), attached := a } e).2 =
          [h1.id]) := by
  refine ⟨?_, ?_, ?_, ?_, ?_⟩
  · intro e hs
    rfl
  · intro e he
    simp [callStopImmediate, he]
  · intro h e he
    simp [runWFn, he]
  · intro a hs e he hns
    simpa [fireDispatch, patchStopImmediatePropagation] using
      cwaeh_gated_no_stops hs ErrorCodes.NATIVE_EVENT_HANDLER
        { e with stopPatched := true } he hns
  · intro a h1 rest e he h1s
    have hrest : ∀ u : EvState, u.stopped = true →
        callWithAsyncErrorHandling (rest.map WFn.gated)
          ErrorCodes.NATIVE_EVENT_HANDLER u = (u, []) :=
      fun u hu => cwaeh_gated_stopped rest ErrorCodes.NATIVE_EVENT_HANDLER u hu
    simp [fireDispatch, patchStopImmediatePropagation,
      callWithAsyncErrorHandling, runWFn, he, runRawHandler, h1s,
      callStopImmediate, hrest, handlerCalls_append, handlerCalls_logOf,
      handlerCalls]

/-- Witness for C6: a three-handler list where the first handler calls
stop-immediate-propagation skips the rest; a benign two-handler list runs
in order; a gated wrapper on an already-stopped event is skipped. -/
theorem claim_C6_witness :
    handlerCalls
        (fireDispatch
          { value := .arr [{ id := 7, throws := false, stops := true },
                           fnOne, fnTwo], attached := 100 } evFresh).2 =
      [7] ∧
    handlerCalls
        (fireDispatch { value := .arr [fnOne, fnTwo], attached := 100 }
          evFresh).2 = [fnOne.id, fnTwo.id] ∧
    runWFn (.gated fnOne) { evFresh with stopped := true } =
      ({ evFresh with stopped := true }, none) :=
  ⟨claim_C6_handler_list.2.2.2.2 100 { id := 7, throws := false, stops := true }
      [fnOne, fnTwo] evFresh rfl rfl,
   claim_C6_handler_list.2.2.2.1 100 [fnOne, fnTwo] evFresh rfl (by decide),
   claim_C6_handler_list.2.2.1 fnOne { evFresh with stopped := true } rfl⟩

/-- C7: an exception thrown inside a handler is caught at the invoker
boundary and routed through the shared async error-handling channel tagged
with the native-event-handler error code: every error an invoker fire ever
reports carries that tag, a throwing single handler yields exactly its
invocation and one tagged report, and a throwing handler in a list does
not prevent the remaining handlers from running. -/
theorem claim_C7_error_containment :
    (∀ (inv : Invoker) (wall : Nat) (e : EvState) (code : ErrorCodes)
        (i : Nat),
        FireLog.errorReported code i ∈ (invokerFire inv wall e).2 →
        code = ErrorCodes.NATIVE_EVENT_HANDLER) ∧
    (∀ (a : Nat) (h : Handler) (e : EvState), h.throws = true →
        (fireDispatch { value := .single h, attached := a } e).2 =
          [FireLog.invoked h.id,
           FireLog.errorReported ErrorCodes.NATIVE_EVENT_HANDLER h.id]) ∧
    (∀ (a : Nat) (hs : List Handler) (e : EvState),
        e.stopped = false → (∀ h ∈ hs, h.stops = false) →
        handlerCalls (fireDispatch { value := .arr hs, attached := a } e).2 =
          hs.map Handler.id) := by
  refine ⟨?_, ?_, ?_⟩
  · intro inv wall e code i hmem
    rw [invokerFire] at hmem
    split at hmem
    · exact fireDispatch_error_tag _ _ _ _ hmem
    · split at hmem
      · simp at hmem
      · exact fireDispatch_error_tag _ _ _ _ hmem
  · intro a h e hthr
    simp [fireDispatch, patchStopImmediatePropagation,
      callWithAsyncErrorHandling, runWFn, runRawHandler, logOf, hthr]
  · intro a hs e he hns
    simpa [fireDispatch, patchStopImmediatePropagation] using
      cwaeh_gated_no_stops hs ErrorCodes.NATIVE_EVENT_HANDLER
        { e with stopPatched := true } he hns

/-- Witness for C7: a handler that throws (id 9) fired through an invoker
produces exactly its invocation and one report tagged with the
native-event-handler code, every reported error of that fire carries the
tag, and a throwing handler at the head of a list does not stop the next
handler from running. -/
theorem claim_C7_witness :
    (fireDispatch
        { value := .single { id := 9, throws := true, stops := false },
          attached := 100 } evFresh).2 =
      [FireLog.invoked 9,
       FireLog.errorReported ErrorCodes.NATIVE_EVENT_HANDLER 9] ∧
    ErrorCodes.NATIVE_EVENT_HANDLER = ErrorCodes.NATIVE_EVENT_HANDLER ∧
    handlerCalls
        (fireDispatch
          { value := .arr [{ id := 9, throws := true, stops := false },
                           fnOne], attached := 100 } evFresh).2 = [9, 1] :=
  ⟨claim_C7_error_containment.2.1 100
      { id := 9, throws := true, stops := false } evFresh rfl,
   claim_C7_error_containment.1
      { value := .single { id := 9, throws := true, stops := false },
        attached := 100 } 105 evFresh ErrorCodes.NATIVE_EVENT_HANDLER 9
      (by decide),
   claim_C7_error_containment.2.2 100
      [{ id := 9, throws := true, stops := false }, fnOne] evFresh rfl
      (by decide)⟩
